import Mathlib

/-!
A verification development for the `session` Go package (a pluggable
session-management layer: Manager + Provider registry, identifier
generation, cookie and header transports).

The definitions below are a shallow embedding of `session.go`:

* pure helper functions (`base64.URLEncoding.EncodeToString`,
  `url.QueryEscape`, `url.QueryUnescape`) become Lean functions on
  `List Nat` (bytes, each `< 256`) and `String`;
* the entropy source `crypto/rand.Reader` becomes an explicit stream of
  32-byte blocks (`EntropyState`), where `none` models a failed
  `io.ReadFull`;
* the `Provider` and `Session` interfaces become records of functions; a
  Go `(Session, error)` result whose error the Manager discards becomes
  `Option Session` (`none` models a nil session / failed call);
* `http.ResponseWriter` cookie output becomes an explicit `List Cookie`
  threaded through the functions; `log.*` calls that matter to the spec
  (the destroy-failure log) become an explicit `List String` of log lines;
* Go `panic` in `Register` and the `error` return of `NewManager` become
  `Except String _`.

The `sync.Mutex` field of `Manager` has no shallow counterpart; the
concurrency claims about it are not modelled here.
-/

/-! ## Bytes and characters -/

/-- Total list indexing with a default, used for alphabet lookup
(Go indexes a constant string by a byte). -/
def nthChar (l : List Char) (n : Nat) (d : Char) : Char :=
  match l, n with
  | [], _ => d
  | a :: _, 0 => a
  | _ :: t, n + 1 => nthChar t n d

/-- Index of a character in a list (first occurrence; length if absent). -/
def charIndex (c : Char) : List Char → Nat
  | [] => 0
  | d :: rest => if d = c then 0 else charIndex c rest + 1

/-! ## base64.URLEncoding (RFC 4648 URL-safe alphabet, `=` padding) -/

/-- The 64 characters of Go's `base64.URLEncoding` alphabet. -/
def b64chars : List Char :=
  ['A', 'B', 'C', 'D', 'E', 'F', 'G', 'H', 'I', 'J', 'K', 'L', 'M',
   'N', 'O', 'P', 'Q', 'R', 'S', 'T', 'U', 'V', 'W', 'X', 'Y', 'Z',
   'a', 'b', 'c', 'd', 'e', 'f', 'g', 'h', 'i', 'j', 'k', 'l', 'm',
   'n', 'o', 'p', 'q', 'r', 's', 't', 'u', 'v', 'w', 'x', 'y', 'z',
   '0', '1', '2', '3', '4', '5', '6', '7', '8', '9', '-', '_']

/-- The alphabet character for a 6-bit value. -/
def sextetChar (n : Nat) : Char := nthChar b64chars n 'A'

/-- The 6-bit value of an alphabet character. -/
def charSextet (c : Char) : Nat := charIndex c b64chars

/-- Split a byte list into 6-bit groups, as base64 encoding does:
three bytes become four sextets, a two-byte tail becomes three and a
one-byte tail becomes two. -/
def toSextets : List Nat → List Nat
  | b0 :: b1 :: b2 :: rest =>
      b0 / 4 :: ((b0 % 4) * 16 + b1 / 16) :: ((b1 % 16) * 4 + b2 / 64) ::
        b2 % 64 :: toSextets rest
  | [b0, b1] => [b0 / 4, (b0 % 4) * 16 + b1 / 16, (b1 % 16) * 4]
  | [b0] => [b0 / 4, (b0 % 4) * 16]
  | [] => []

/-- Reassemble bytes from 6-bit groups (the decoding direction). -/
def fromSextets : List Nat → List Nat
  | s0 :: s1 :: s2 :: s3 :: rest =>
      (s0 * 4 + s1 / 16) :: ((s1 % 16) * 16 + s2 / 4) :: ((s2 % 4) * 64 + s3) ::
        fromSextets rest
  | [s0, s1, s2] => [s0 * 4 + s1 / 16, (s1 % 16) * 16 + s2 / 4]
  | [s0, s1] => [s0 * 4 + s1 / 16]
  | _ => []

/-- The `=` padding appended by `base64.URLEncoding.EncodeToString`. -/
def b64pad (bs : List Nat) : List Char :=
  match bs.length % 3 with
  | 1 => ['=', '=']
  | 2 => ['=']
  | _ => []

/-- `base64.URLEncoding.EncodeToString`: URL-safe base64 with padding. -/
def base64UrlEncode (bs : List Nat) : String :=
  String.mk ((toSextets bs).map sextetChar ++ b64pad bs)

/-- `base64.URLEncoding.DecodeString` (on well-formed input): drop the
padding, map characters back to sextets, reassemble bytes. -/
def base64UrlDecode (s : String) : List Nat :=
  fromSextets (((s.toList.filter (fun c => c ≠ '=')).map charSextet))

/-! ## url.QueryEscape / url.QueryUnescape

Modelled at the character level for single-byte (code point `< 256`)
characters, which covers every string these claims transport (base64
identifiers and ASCII cookie values). -/

/-- Go's `shouldEscape(c, encodeQueryComponent) = false`: alphanumerics
and `-`, `_`, `.`, `~` stay unescaped (codes given in decimal). -/
def isUnreserved (c : Char) : Bool :=
  let n := c.toNat
  (65 ≤ n && n ≤ 90) || (97 ≤ n && n ≤ 122) || (48 ≤ n && n ≤ 57) ||
    n == 45 || n == 95 || n == 46 || n == 126

/-- Upper-case hexadecimal digit, as Go's `upperhex` table. -/
def hexDigit (d : Nat) : Char :=
  nthChar ['0', '1', '2', '3', '4', '5', '6', '7', '8', '9',
           'A', 'B', 'C', 'D', 'E', 'F'] d '0'

/-- Value of a hexadecimal digit character (Go's `unhex`/`ishex`). -/
def hexVal (c : Char) : Option Nat :=
  let n := c.toNat
  if 48 ≤ n && n ≤ 57 then some (n - 48)
  else if 97 ≤ n && n ≤ 102 then some (n - 97 + 10)
  else if 65 ≤ n && n ≤ 70 then some (n - 65 + 10)
  else none

/-- Escape one character: keep it if unreserved, turn a space into `+`,
percent-encode anything else. -/
def escapeChar (c : Char) : List Char :=
  if isUnreserved c then [c]
  else if c = ' ' then ['+']
  else ['%', hexDigit (c.toNat / 16), hexDigit (c.toNat % 16)]

/-- `url.QueryEscape`. -/
def queryEscape (s : String) : String :=
  String.mk (s.toList.flatMap escapeChar)

/-- The unescaping loop of `url.QueryUnescape`: `%XX` must be followed by
two hexadecimal digits or the whole call fails; `+` becomes a space. -/
def unescapeChars : List Char → Option (List Char)
  | [] => some []
  | c :: rest =>
    if c = '%' then
      match rest with
      | c1 :: c2 :: rest2 =>
        match hexVal c1, hexVal c2 with
        | some h1, some h2 =>
            (unescapeChars rest2).map (fun l => Char.ofNat (h1 * 16 + h2) :: l)
        | _, _ => none
      | _ => none
    else if c = '+' then (unescapeChars rest).map (fun l => ' ' :: l)
    else (unescapeChars rest).map (fun l => c :: l)

/-- `url.QueryUnescape`: `none` models a non-nil error (Go then also
returns `""` as the string result, see `queryUnescapeD`). -/
def queryUnescape (s : String) : Option String :=
  (unescapeChars s.toList).map String.mk

/-- The value of `sid` after Go's `sid, _ = url.QueryUnescape(v)`:
the unescaped string on success, `""` on error (Go's `unescape` returns
`"", err` on failure and the caller discards `err`). -/
def queryUnescapeD (s : String) : String :=
  (queryUnescape s).getD ""

/-! ## HTTP model -/

/-- The fields of `http.Cookie` that `session.go` sets (`Name`, `Value`,
`Path`, `HttpOnly`, `MaxAge`); the remaining Go fields are never touched
by this package. -/
structure Cookie where
  name : String
  value : String
  path : String
  httpOnly : Bool
  maxAge : Int
  deriving Repr, DecidableEq

/-- An `http.Request` as this package reads it: its cookies and its
headers. -/
structure Request where
  cookies : List Cookie
  headers : List (String × String)

/-- `r.Cookie(name)`: the first cookie with that name; `none` models the
`http.ErrNoCookie` error return. -/
def Request.cookie (r : Request) (name : String) : Option Cookie :=
  r.cookies.find? (fun c => c.name == name)

/-- `r.Header.Get(key)`: first matching header value, `""` if absent. -/
def headerGet (hs : List (String × String)) (key : String) : String :=
  ((hs.find? (fun p => p.1 == key)).map (fun p => p.2)).getD ""

/-- `http.SetCookie(w, &cookie)`: append a `Set-Cookie` to the response. -/
def setCookie (w : List Cookie) (c : Cookie) : List Cookie :=
  w ++ [c]

/-! ## The Session and Provider interfaces -/

/-- The `Session` interface. Only `SessionID()` is called by this
package; the `Set`/`Get`/`Delete` capabilities live in the Provider's
backend and are outside every claim, so a session is modelled by the one
observation the Manager makes of it. -/
structure Session where
  SessionID : String
  deriving Repr, DecidableEq

/-- The `Provider` interface. `SessionInit`/`SessionRead` return Go's
`(Session, error)`; the Manager discards the error, so the pair is
modelled as `Option Session` (`none` = nil session). `SessionDestroy`
returns an error or nil, modelled as `Option String` (`some` = error).
`SessionGC` is never called by this package. -/
structure Provider where
  SessionInit : String → Option Session
  SessionRead : String → Option Session
  SessionDestroy : String → Option String
  SessionGC : Int → Unit

/-! ## The provider registry -/

/-- The package-global `provides` map, as an association list. -/
abbrev Registry := List (String × Provider)

/-- Go map lookup `provides[name]`. -/
def regLookup (reg : Registry) (name : String) : Option Provider :=
  ((List.find? (fun p => p.1 == name) reg)).map (fun p => p.2)

/-- `Register(name, provider)`. A Go `panic` (nil provider, duplicate
name) is `Except.error`; success returns the extended registry. The
provider argument is `Option Provider` so that a nil Go interface value
is representable. -/
def Register (reg : Registry) (name : String) (provider : Option Provider) :
    Except String Registry :=
  match provider with
  | none => Except.error "session: register provider is nil"
  | some p =>
    if (regLookup reg name).isSome then
      Except.error ("session: Register called twice for provider" ++ name)
    else
      Except.ok (reg ++ [(name, p)])

/-! ## The Manager -/

/-- `Manager` (the `sync.Mutex` field has no shallow counterpart). -/
structure Manager where
  cookieName : String
  provider : Provider
  maxlifetime : Int

/-- `NewManager(provideName, cookieName, maxlifetime)`: look the provider
up in the registry; unknown names give an error and no manager. -/
def NewManager (reg : Registry) (provideName : String) (cookieName : String)
    (maxlifetime : Int) : Except String Manager :=
  match regLookup reg provideName with
  | none =>
      Except.error ("session: unknown provide " ++ provideName ++ " (forgotten import?)")
  | some provider =>
      Except.ok { provider := provider, cookieName := cookieName, maxlifetime := maxlifetime }

/-- The entropy source `crypto/rand.Reader`: a stream of results of
32-byte `io.ReadFull` calls; `none` models a read error. -/
structure EntropyState where
  blocks : List (Option (List Nat))
  deriving Repr, DecidableEq

/-- One `io.ReadFull(rand.Reader, b)` with `len(b) = 32`: consume the
next block of the stream (an exhausted stream is also a read error). -/
def readFull32 : EntropyState → Option (List Nat) × EntropyState
  | ⟨[]⟩ => (none, ⟨[]⟩)
  | ⟨b :: rest⟩ => (b, ⟨rest⟩)

/-- `Manager.sessionId()`: 32 random bytes, URL-safe base64-encoded;
on a read error the function returns `""`. -/
def Manager.sessionId (_m : Manager) (es : EntropyState) : String × EntropyState :=
  match readFull32 es with
  | (none, es1) => ("", es1)
  | (some b, es1) => (base64UrlEncode b, es1)

/-- `Manager.SessionStart(w, r)`: if the request has no cookie named
`cookieName` or its value is empty, generate an id, `SessionInit` it and
set a response cookie (query-escaped id, path `/`, HttpOnly, MaxAge =
maxlifetime); otherwise query-unescape the cookie value (error
discarded) and `SessionRead` it, leaving the response alone. Returns the
session, the response cookies and the entropy stream. -/
def Manager.SessionStart (m : Manager) (w : List Cookie) (r : Request)
    (es : EntropyState) : Option Session × List Cookie × EntropyState :=
  let createNew :=
    let (sid, es1) := m.sessionId es
    let session := m.provider.SessionInit sid
    let cookie : Cookie :=
      { name := m.cookieName, value := queryEscape sid, path := "/",
        httpOnly := true, maxAge := m.maxlifetime }
    (session, setCookie w cookie, es1)
  match r.cookie m.cookieName with
  | none => createNew
  | some cookie =>
    if cookie.value = "" then createNew
    else
      let sid := queryUnescapeD cookie.value
      (m.provider.SessionRead sid, w, es)

/-- `Manager.SessionEnd(w, s)`: set a deletion cookie (MaxAge `-1`) and
then `SessionDestroy` the session's id; a destroy error is logged (the
returned log lines) and not propagated. -/
def Manager.SessionEnd (m : Manager) (w : List Cookie) (s : Session) :
    List Cookie × List String :=
  let sid := s.SessionID
  let cookie : Cookie :=
    { name := m.cookieName, value := queryEscape sid, path := "/",
      httpOnly := true, maxAge := -1 }
  let w1 := setCookie w cookie
  match m.provider.SessionDestroy sid with
  | some _ => (w1, ["destroy session for id " ++ sid ++ " failed"])
  | none => (w1, [])

/-- `Manager.ApiSessionCreate()`: generate an id and `SessionInit` it;
no transport artifact is produced. -/
def Manager.ApiSessionCreate (m : Manager) (es : EntropyState) :
    Option Session × EntropyState :=
  let (sid, es1) := m.sessionId es
  (m.provider.SessionInit sid, es1)

/-- `Manager.ApiSessionStart(r)`: read the `X-Session-Token` header,
query-unescape it (error discarded); if the result is empty, delegate to
`ApiSessionCreate`, otherwise `SessionRead` it. -/
def Manager.ApiSessionStart (m : Manager) (r : Request) (es : EntropyState) :
    Option Session × EntropyState :=
  let sid := headerGet r.headers "X-Session-Token"
  let sid := queryUnescapeD sid
  if sid = "" then m.ApiSessionCreate es
  else (m.provider.SessionRead sid, es)

/-- `Manager.ApiSessionEnd(session)`: `SessionDestroy` the session's id;
a destroy error is logged (the returned log lines), not propagated. -/
def Manager.ApiSessionEnd (m : Manager) (s : Session) : List String :=
  match m.provider.SessionDestroy s.SessionID with
  | some _ => ["destroy session for id " ++ s.SessionID ++ " failed"]
  | none => []

/-! ## Concrete instances used by the witnesses -/

/-- A faithful in-memory-style provider: reading an id yields a session
with exactly that id (stands in for the out-of-scope backend). -/
def echoProvider : Provider where
  SessionInit := fun sid => some ⟨sid⟩
  SessionRead := fun sid => some ⟨sid⟩
  SessionDestroy := fun _ => none
  SessionGC := fun _ => ()

/-- A manager bound to `echoProvider`. -/
def demoManager : Manager where
  cookieName := "gosessionid"
  provider := echoProvider
  maxlifetime := 3600

/-- A registry with one provider registered under `"demo"`. -/
def demoRegistry : Registry := [("demo", echoProvider)]

/-- A concrete 32-byte entropy block. -/
def demoBytes : List Nat := List.replicate 32 5

/-! ## Lemmas about the base64 alphabet -/

theorem nthChar_mem_or (l : List Char) (d : Char) (n : Nat) :
    nthChar l n d ∈ l ∨ nthChar l n d = d := by
  induction l generalizing n with
  | nil => right; cases n <;> rfl
  | cons a t ih =>
    cases n with
    | zero => left; simp [nthChar]
    | succ k =>
      rcases ih k with h | h
      · left; simp [nthChar, h]
      · right; simp [nthChar, h]

theorem sextetChar_mem (n : Nat) : sextetChar n ∈ b64chars := by
  rcases nthChar_mem_or b64chars 'A' n with h | h
  · exact h
  · rw [sextetChar, h]; decide

theorem sextetChar_ne_pad (n : Nat) : sextetChar n ≠ '=' := by
  intro heq
  have hm := sextetChar_mem n
  rw [heq] at hm
  exact absurd hm (by decide)

theorem charSextet_sextetChar : ∀ n, n < 64 → charSextet (sextetChar n) = n := by
  decide

theorem b64_mem_lt256 : ∀ c ∈ b64chars, c.toNat < 256 := by decide

theorem toSextets_lt : ∀ (bs : List Nat), (∀ b ∈ bs, b < 256) →
    ∀ s ∈ toSextets bs, s < 64 := by
  intro bs
  induction bs using toSextets.induct with
  | case1 b0 b1 b2 rest ih =>
    intro h s hs
    have hb0 : b0 < 256 := h _ (by simp)
    have hb1 : b1 < 256 := h _ (by simp)
    have hb2 : b2 < 256 := h _ (by simp)
    simp only [toSextets, List.mem_cons] at hs
    rcases hs with rfl | rfl | rfl | rfl | hs
    · omega
    · omega
    · omega
    · omega
    · exact ih (fun b hb => h b (by simp [hb])) s hs
  | case2 b0 b1 =>
    intro h s hs
    have hb0 : b0 < 256 := h _ (by simp)
    have hb1 : b1 < 256 := h _ (by simp)
    simp only [toSextets, List.mem_cons, List.not_mem_nil, or_false] at hs
    rcases hs with rfl | rfl | rfl <;> omega
  | case3 b0 =>
    intro h s hs
    have hb0 : b0 < 256 := h _ (by simp)
    simp only [toSextets, List.mem_cons, List.not_mem_nil, or_false] at hs
    rcases hs with rfl | rfl <;> omega
  | case4 =>
    intro _ s hs
    simp [toSextets] at hs

theorem fromSextets_toSextets : ∀ (bs : List Nat), (∀ b ∈ bs, b < 256) →
    fromSextets (toSextets bs) = bs := by
  intro bs
  induction bs using toSextets.induct with
  | case1 b0 b1 b2 rest ih =>
    intro h
    have hb0 : b0 < 256 := h _ (by simp)
    have hb1 : b1 < 256 := h _ (by simp)
    have hb2 : b2 < 256 := h _ (by simp)
    have ht := ih (fun b hb => h b (by simp [hb]))
    simp only [toSextets, fromSextets, ht, List.cons.injEq, and_true]
    refine ⟨by omega, by omega, by omega⟩
  | case2 b0 b1 =>
    intro h
    have hb0 : b0 < 256 := h _ (by simp)
    have hb1 : b1 < 256 := h _ (by simp)
    simp only [toSextets, fromSextets, List.cons.injEq, and_true]
    refine ⟨by omega, by omega⟩
  | case3 b0 =>
    intro h
    have hb0 : b0 < 256 := h _ (by simp)
    simp only [toSextets, fromSextets, List.cons.injEq, and_true]
    omega
  | case4 => intro _; rfl

theorem map_id_of_forall {α : Type} (f : α → α) :
    ∀ (l : List α), (∀ a ∈ l, f a = a) → l.map f = l := by
  intro l
  induction l with
  | nil => intro _; rfl
  | cons a t ih =>
    intro h
    simp only [List.map_cons, h a (by simp), List.cons.injEq, true_and]
    exact ih (fun b hb => h b (by simp [hb]))

theorem b64pad_all_pad (bs : List Nat) : ∀ c ∈ b64pad bs, c = '=' := by
  have h3 : bs.length % 3 = 0 ∨ bs.length % 3 = 1 ∨ bs.length % 3 = 2 := by omega
  rcases h3 with h | h | h <;> simp [b64pad, h]

theorem base64_decode_encode (bs : List Nat) (h : ∀ b ∈ bs, b < 256) :
    base64UrlDecode (base64UrlEncode bs) = bs := by
  unfold base64UrlDecode base64UrlEncode
  rw [show (String.mk ((toSextets bs).map sextetChar ++ b64pad bs)).toList
      = (toSextets bs).map sextetChar ++ b64pad bs from rfl]
  rw [List.filter_append]
  have h1 : ((toSextets bs).map sextetChar).filter (fun c => c ≠ '=')
      = (toSextets bs).map sextetChar := by
    rw [List.filter_eq_self]
    intro c hc
    simp only [List.mem_map] at hc
    obtain ⟨s, _, rfl⟩ := hc
    simpa using sextetChar_ne_pad s
  have h2 : (b64pad bs).filter (fun c => c ≠ '=') = [] := by
    rw [List.filter_eq_nil_iff]
    intro c hc
    simp [b64pad_all_pad bs c hc]
  rw [h1, h2, List.append_nil, List.map_map]
  rw [map_id_of_forall (charSextet ∘ sextetChar) (toSextets bs)
      (fun s hs => charSextet_sextetChar s (toSextets_lt bs h s hs))]
  exact fromSextets_toSextets bs h

theorem base64UrlEncode_inj (b1 b2 : List Nat) (h1 : ∀ b ∈ b1, b < 256)
    (h2 : ∀ b ∈ b2, b < 256) (he : base64UrlEncode b1 = base64UrlEncode b2) :
    b1 = b2 := by
  rw [← base64_decode_encode b1 h1, ← base64_decode_encode b2 h2, he]

theorem base64UrlEncode_ne_empty (bs : List Nat) (h : bs ≠ []) :
    base64UrlEncode bs ≠ "" := by
  intro hc
  have hl : (toSextets bs).map sextetChar ++ b64pad bs = [] := by
    have := congrArg String.toList hc
    simpa [base64UrlEncode] using this
  have h4 : toSextets bs = [] := by
    rcases List.append_eq_nil.mp hl with ⟨ha, _⟩
    exact List.map_eq_nil_iff.mp ha
  cases bs with
  | nil => exact h rfl
  | cons b t =>
    cases t with
    | nil => simp [toSextets] at h4
    | cons b1 t1 =>
      cases t1 with
      | nil => simp [toSextets] at h4
      | cons b2 t2 => simp [toSextets] at h4

theorem base64UrlEncode_chars (bs : List Nat) :
    ∀ c ∈ (base64UrlEncode bs).toList, c ∈ b64chars ∨ c = '=' := by
  intro c hc
  rw [show (base64UrlEncode bs).toList
      = (toSextets bs).map sextetChar ++ b64pad bs from rfl] at hc
  rcases List.mem_append.mp hc with h | h
  · left
    obtain ⟨s, _, rfl⟩ := List.mem_map.mp h
    exact sextetChar_mem s
  · right
    exact b64pad_all_pad bs c h

theorem base64UrlEncode_chars_lt256 (bs : List Nat) :
    ∀ c ∈ (base64UrlEncode bs).toList, c.toNat < 256 := by
  intro c hc
  rcases base64UrlEncode_chars bs c hc with h | h
  · exact b64_mem_lt256 c h
  · rw [h]; decide

/-! ## Lemmas about query escaping -/

theorem hexVal_hexDigit : ∀ d, d < 16 → hexVal (hexDigit d) = some d := by
  decide

theorem escapeChar_ne_nil (c : Char) : escapeChar c ≠ [] := by
  unfold escapeChar
  split
  · simp
  · split <;> simp

theorem unescapeChars_escapeChar (c : Char) (l : List Char) (hc : c.toNat < 256) :
    unescapeChars (escapeChar c ++ l) = (unescapeChars l).map (fun t => c :: t) := by
  by_cases hu : isUnreserved c
  · have hne1 : c ≠ '%' := by
      rintro rfl
      exact absurd hu (by decide)
    have hne2 : c ≠ '+' := by
      rintro rfl
      exact absurd hu (by decide)
    rw [show escapeChar c = [c] from by simp [escapeChar, hu]]
    simp only [List.cons_append, List.nil_append]
    rw [unescapeChars.eq_def]
    simp only [if_neg hne1, if_neg hne2]
  · by_cases hsp : c = ' '
    · subst hsp
      rw [show escapeChar ' ' = ['+'] from rfl]
      simp only [List.cons_append, List.nil_append]
      rw [unescapeChars.eq_def]
      simp
    · have hesc : escapeChar c
          = ['%', hexDigit (c.toNat / 16), hexDigit (c.toNat % 16)] := by
        simp [escapeChar, hu, hsp]
      rw [hesc]
      simp only [List.cons_append, List.nil_append]
      rw [unescapeChars.eq_def]
      simp only [if_pos rfl, hexVal_hexDigit _ (by omega : c.toNat / 16 < 16),
        hexVal_hexDigit _ (by omega : c.toNat % 16 < 16), if_true,
        show c.toNat / 16 * 16 + c.toNat % 16 = c.toNat from by omega,
        Char.ofNat_toNat]

theorem unescapeChars_escape : ∀ (cs : List Char), (∀ c ∈ cs, c.toNat < 256) →
    unescapeChars (cs.flatMap escapeChar) = some cs := by
  intro cs
  induction cs with
  | nil => intro _; rfl
  | cons c rest ih =>
    intro h
    rw [List.flatMap_cons,
      unescapeChars_escapeChar c (rest.flatMap escapeChar) (h c (by simp)),
      ih (fun x hx => h x (by simp [hx]))]
    rfl

theorem queryUnescape_queryEscape (s : String)
    (h : ∀ c ∈ s.toList, c.toNat < 256) :
    queryUnescape (queryEscape s) = some s := by
  unfold queryUnescape queryEscape
  rw [show (String.mk (s.toList.flatMap escapeChar)).toList
      = s.toList.flatMap escapeChar from rfl]
  rw [unescapeChars_escape s.toList h]
  rfl

theorem queryUnescapeD_queryEscape (s : String)
    (h : ∀ c ∈ s.toList, c.toNat < 256) :
    queryUnescapeD (queryEscape s) = s := by
  rw [queryUnescapeD, queryUnescape_queryEscape s h]
  rfl

theorem queryEscape_ne_empty (s : String) (h : s ≠ "") : queryEscape s ≠ "" := by
  intro hc
  have hl : s.toList.flatMap escapeChar = [] := by
    have := congrArg String.toList hc
    simpa [queryEscape] using this
  cases hs : s.toList with
  | nil =>
    apply h
    have := congrArg String.mk hs
    simpa using this
  | cons c t =>
    rw [hs, List.flatMap_cons] at hl
    rcases List.append_eq_nil.mp hl with ⟨ha, _⟩
    exact escapeChar_ne_nil c ha

theorem queryUnescape_empty_eq_some : queryUnescape "" = some "" := rfl

theorem queryUnescape_ne_empty_of_fail (s : String) (h : queryUnescape s = none) :
    s ≠ "" := by
  rintro rfl
  rw [queryUnescape_empty_eq_some] at h
  cases h

/-! ## Lemmas about the registry -/

theorem regLookup_append_self (reg : Registry) (name : String) (p : Provider)
    (h : regLookup reg name = none) :
    regLookup (reg ++ [(name, p)]) name = some p := by
  induction reg with
  | nil => simp [regLookup, List.find?]
  | cons kv rest ih =>
    cases hk : (kv.1 == name) with
    | false =>
      simp only [regLookup, List.cons_append, List.find?, hk] at h ⊢
      exact ih h
    | true =>
      simp [regLookup, List.find?, hk] at h

theorem regLookup_append_other (reg : Registry) (name : String) (p : Provider)
    (other : String) (h : other ≠ name) :
    regLookup (reg ++ [(name, p)]) other = regLookup reg other := by
  have hb : (name == other) = false :=
    beq_eq_false_iff_ne.mpr (fun heq => h heq.symm)
  induction reg with
  | nil => simp [regLookup, List.find?, hb]
  | cons kv rest ih =>
    cases hk : (kv.1 == other) with
    | false =>
      simp only [regLookup, List.cons_append, List.find?, hk] at ih ⊢
      exact ih
    | true =>
      simp [regLookup, List.find?, hk]

/-! ## The claims -/

/-- Claim C1: `SessionStart` branches on the cookie named `cookieName`.
If it is absent or empty, a new identifier is generated, passed to
`Provider.SessionInit`, and a cookie with the query-escaped identifier,
path `/`, HttpOnly and MaxAge = configured lifetime is added to the
response; if it is present and non-empty, its value is query-unescaped,
`Provider.SessionRead` is called on the result, and the response cookies
are unchanged. -/
theorem SessionStart_branches (m : Manager) (w : List Cookie) (r : Request)
    (es : EntropyState) :
    ((r.cookie m.cookieName = none ∨
        (∃ ck, r.cookie m.cookieName = some ck ∧ ck.value = "")) →
      m.SessionStart w r es =
        (m.provider.SessionInit (m.sessionId es).1,
         w ++ [{ name := m.cookieName, value := queryEscape (m.sessionId es).1,
                 path := "/", httpOnly := true, maxAge := m.maxlifetime }],
         (m.sessionId es).2)) ∧
    (∀ ck, r.cookie m.cookieName = some ck → ck.value ≠ "" →
      m.SessionStart w r es =
        (m.provider.SessionRead (queryUnescapeD ck.value), w, es)) := by
  constructor
  · intro h
    rcases hsid : m.sessionId es with ⟨sid, es1⟩
    rcases h with h | ⟨ck, hck, hv⟩
    · simp [Manager.SessionStart, h, hsid, setCookie]
    · simp [Manager.SessionStart, hck, hv, hsid, setCookie]
  · intro ck hck hv
    simp [Manager.SessionStart, hck, hv]

/-- Witness for C1: both branches at concrete inputs. -/
theorem SessionStart_branches_witness :
    demoManager.SessionStart [] { cookies := [], headers := [] }
        ⟨[some demoBytes]⟩
      = (demoManager.provider.SessionInit
           (demoManager.sessionId ⟨[some demoBytes]⟩).1,
         [] ++ [{ name := demoManager.cookieName,
                  value := queryEscape (demoManager.sessionId ⟨[some demoBytes]⟩).1,
                  path := "/", httpOnly := true, maxAge := demoManager.maxlifetime }],
         (demoManager.sessionId ⟨[some demoBytes]⟩).2) ∧
    demoManager.SessionStart []
        { cookies := [{ name := "gosessionid", value := "abc", path := "/",
                        httpOnly := true, maxAge := 0 }], headers := [] } ⟨[]⟩
      = (demoManager.provider.SessionRead (queryUnescapeD "abc"), [],
         (⟨[]⟩ : EntropyState)) :=
  ⟨(SessionStart_branches demoManager [] { cookies := [], headers := [] }
      ⟨[some demoBytes]⟩).1 (Or.inl rfl),
   (SessionStart_branches demoManager []
      { cookies := [{ name := "gosessionid", value := "abc", path := "/",
                      httpOnly := true, maxAge := 0 }], headers := [] } ⟨[]⟩).2
      { name := "gosessionid", value := "abc", path := "/", httpOnly := true,
        maxAge := 0 }
      rfl (by decide)⟩

/-- Claim C2 (the code violates it): when the entropy read fails,
`sessionId` returns `""` instead of surfacing an error, and
`SessionStart` passes that empty identifier to `Provider.SessionInit` as
if it were valid, even setting an (empty-valued) session cookie. -/
theorem sessionId_entropy_failure_yields_empty :
    demoManager.sessionId ⟨[none]⟩ = ("", ⟨[]⟩) ∧
    (demoManager.SessionStart [] { cookies := [], headers := [] } ⟨[none]⟩).1
      = demoManager.provider.SessionInit "" ∧
    demoManager.provider.SessionInit "" = some ⟨""⟩ ∧
    (demoManager.SessionStart [] { cookies := [], headers := [] } ⟨[none]⟩).2.1
      = [{ name := "gosessionid", value := "", path := "/", httpOnly := true,
           maxAge := 3600 }] :=
  ⟨rfl, rfl, rfl, rfl⟩

/-- Claim C3: `SessionEnd` always appends a deletion cookie (name
`cookieName`, MaxAge `-1 < 0`) to the response, whatever
`Provider.SessionDestroy` returns; a destroy failure only produces a log
line and is not propagated. -/
theorem SessionEnd_cookie_unconditional (m : Manager) (w : List Cookie)
    (s : Session) :
    (m.SessionEnd w s).1
      = w ++ [{ name := m.cookieName, value := queryEscape s.SessionID,
                path := "/", httpOnly := true, maxAge := -1 }] ∧
    (-1 : Int) < 0 ∧
    ((m.SessionEnd w s).2 ≠ [] ↔ (m.provider.SessionDestroy s.SessionID).isSome) := by
  refine ⟨?_, by norm_num, ?_⟩
  · unfold Manager.SessionEnd setCookie
    rcases h : m.provider.SessionDestroy s.SessionID with _ | e <;> simp [h]
  · unfold Manager.SessionEnd
    rcases h : m.provider.SessionDestroy s.SessionID with _ | e <;> simp [h]

/-- Claim C4: when the `X-Session-Token` header query-unescapes to `""`
(also when absent), `ApiSessionStart` returns exactly what
`ApiSessionCreate` returns on the same state; `ApiSessionCreate` yields
the `SessionInit` of a freshly generated identifier, and identifiers
coming from distinct entropy blocks are distinct. -/
theorem ApiSessionStart_empty_token_eq_create (m : Manager) (r : Request)
    (es : EntropyState)
    (h : queryUnescapeD (headerGet r.headers "X-Session-Token") = "")
    (b1 b2 : List Nat) (rest : List (Option (List Nat)))
    (hb1 : ∀ b ∈ b1, b < 256) (hb2 : ∀ b ∈ b2, b < 256) (hne : b1 ≠ b2) :
    m.ApiSessionStart r es = m.ApiSessionCreate es ∧
    m.ApiSessionCreate ⟨some b1 :: some b2 :: rest⟩
      = (m.provider.SessionInit (base64UrlEncode b1), ⟨some b2 :: rest⟩) ∧
    m.ApiSessionCreate ⟨some b2 :: rest⟩
      = (m.provider.SessionInit (base64UrlEncode b2), ⟨rest⟩) ∧
    base64UrlEncode b1 ≠ base64UrlEncode b2 := by
  refine ⟨?_, rfl, rfl, fun he => hne (base64UrlEncode_inj b1 b2 hb1 hb2 he)⟩
  simp [Manager.ApiSessionStart, h]

/-- Witness for C4: absent header, two distinct concrete blocks. -/
theorem ApiSessionStart_empty_token_eq_create_witness :
    demoManager.ApiSessionStart { cookies := [], headers := [] } ⟨[]⟩
      = demoManager.ApiSessionCreate ⟨[]⟩ ∧
    demoManager.ApiSessionCreate
        ⟨[some (List.replicate 32 0), some (List.replicate 32 1)]⟩
      = (demoManager.provider.SessionInit (base64UrlEncode (List.replicate 32 0)),
         ⟨[some (List.replicate 32 1)]⟩) ∧
    demoManager.ApiSessionCreate ⟨[some (List.replicate 32 1)]⟩
      = (demoManager.provider.SessionInit (base64UrlEncode (List.replicate 32 1)),
         ⟨[]⟩) ∧
    base64UrlEncode (List.replicate 32 0) ≠ base64UrlEncode (List.replicate 32 1) :=
  ApiSessionStart_empty_token_eq_create demoManager
    { cookies := [], headers := [] } ⟨[]⟩ rfl
    (List.replicate 32 0) (List.replicate 32 1) [] (by decide) (by decide)
    (by decide)

/-- Claim C5: round-trip over the cookie transport. A `SessionStart`
with no session cookie emits a cookie whose value is the (non-empty)
query-escaped identifier; a second `SessionStart` carrying exactly that
value takes the read branch, leaves the response alone and returns
`Provider.SessionRead` of the decoded value, whose id is the decoded
value whenever the provider stores sessions faithfully. -/
theorem SessionStart_roundtrip (m : Manager) (w1 w2 : List Cookie)
    (r1 r2 : Request) (bytes : List Nat) (rest : List (Option (List Nat)))
    (es2 : EntropyState)
    (h1 : r1.cookie m.cookieName = none)
    (hlen : bytes.length = 32) (_hb : ∀ b ∈ bytes, b < 256)
    (hfaith : ∀ id s, m.provider.SessionRead id = some s → s.SessionID = id)
    (ck : Cookie)
    (h2 : r2.cookie m.cookieName = some ck)
    (hval : ck.value = queryEscape (base64UrlEncode bytes)) :
    (m.SessionStart w1 r1 ⟨some bytes :: rest⟩).2.1
        = w1 ++ [{ name := m.cookieName,
                   value := queryEscape (base64UrlEncode bytes),
                   path := "/", httpOnly := true, maxAge := m.maxlifetime }] ∧
    queryEscape (base64UrlEncode bytes) ≠ "" ∧
    m.SessionStart w2 r2 es2
        = (m.provider.SessionRead (base64UrlEncode bytes), w2, es2) ∧
    (∀ s, m.provider.SessionRead (base64UrlEncode bytes) = some s →
        s.SessionID = base64UrlEncode bytes) := by
  have hsidne : base64UrlEncode bytes ≠ "" :=
    base64UrlEncode_ne_empty bytes (by intro h0; rw [h0] at hlen; simp at hlen)
  have hescne : queryEscape (base64UrlEncode bytes) ≠ "" :=
    queryEscape_ne_empty _ hsidne
  have hdec : queryUnescapeD (queryEscape (base64UrlEncode bytes))
      = base64UrlEncode bytes :=
    queryUnescapeD_queryEscape _ (base64UrlEncode_chars_lt256 bytes)
  refine ⟨?_, hescne, ?_, fun s hs => hfaith _ s hs⟩
  · simp [Manager.SessionStart, h1, setCookie, Manager.sessionId, readFull32]
  · simp [Manager.SessionStart, h2, hval, hescne, hdec]

/-- Witness for C5: echo provider, concrete 32-byte block. -/
theorem SessionStart_roundtrip_witness :
    (demoManager.SessionStart [] { cookies := [], headers := [] }
        ⟨[some demoBytes]⟩).2.1
      = [] ++ [{ name := demoManager.cookieName,
                 value := queryEscape (base64UrlEncode demoBytes),
                 path := "/", httpOnly := true,
                 maxAge := demoManager.maxlifetime }] ∧
    queryEscape (base64UrlEncode demoBytes) ≠ "" ∧
    demoManager.SessionStart []
        { cookies := [{ name := "gosessionid",
                        value := queryEscape (base64UrlEncode demoBytes),
                        path := "/", httpOnly := true, maxAge := 3600 }],
          headers := [] } ⟨[]⟩
      = (demoManager.provider.SessionRead (base64UrlEncode demoBytes), [],
         (⟨[]⟩ : EntropyState)) := by
  have h := SessionStart_roundtrip demoManager [] []
    { cookies := [], headers := [] }
    { cookies := [{ name := "gosessionid",
                    value := queryEscape (base64UrlEncode demoBytes),
                    path := "/", httpOnly := true, maxAge := 3600 }],
      headers := [] }
    demoBytes [] ⟨[]⟩ rfl rfl (by decide)
    (by
      intro id s hs
      simp only [demoManager, echoProvider] at hs
      cases hs
      rfl)
    { name := "gosessionid", value := queryEscape (base64UrlEncode demoBytes),
      path := "/", httpOnly := true, maxAge := 3600 }
    rfl rfl
  exact ⟨h.1, h.2.1, h.2.2.1⟩

/-- Claim C6: `NewManager` on an unregistered name yields an error (and
no manager); on a registered name it yields a manager bound to that
provider, the given cookie name and the given lifetime, with no error. -/
theorem NewManager_spec (reg : Registry) (name cookieName : String)
    (lifetime : Int) :
    (regLookup reg name = none →
      NewManager reg name cookieName lifetime
        = Except.error ("session: unknown provide " ++ name
            ++ " (forgotten import?)")) ∧
    (∀ p, regLookup reg name = some p →
      NewManager reg name cookieName lifetime
        = Except.ok { provider := p, cookieName := cookieName,
                      maxlifetime := lifetime }) := by
  constructor
  · intro h
    simp [NewManager, h]
  · intro p h
    simp [NewManager, h]

/-- Witness for C6: a one-entry registry, one missing and one present
name. -/
theorem NewManager_spec_witness :
    NewManager demoRegistry "missing" "gosessionid" 3600
      = Except.error ("session: unknown provide " ++ "missing"
          ++ " (forgotten import?)") ∧
    NewManager demoRegistry "demo" "gosessionid" 3600
      = Except.ok { provider := echoProvider, cookieName := "gosessionid",
                    maxlifetime := 3600 } :=
  ⟨(NewManager_spec demoRegistry "missing" "gosessionid" 3600).1 rfl,
   (NewManager_spec demoRegistry "demo" "gosessionid" 3600).2 echoProvider rfl⟩

/-- Claim C7: `Register` fails fatally on a nil provider and on a
duplicate name (the registry is then not extended, as the panic aborts);
otherwise it appends exactly the mapping `name → provider`: the new name
looks up to the new provider and every other name is unaffected. -/
theorem Register_spec (reg : Registry) (name : String) :
    Register reg name none
      = Except.error "session: register provider is nil" ∧
    (∀ p, (regLookup reg name).isSome = true →
      Register reg name (some p)
        = Except.error ("session: Register called twice for provider" ++ name)) ∧
    (∀ p, regLookup reg name = none →
      Register reg name (some p) = Except.ok (reg ++ [(name, p)]) ∧
      regLookup (reg ++ [(name, p)]) name = some p ∧
      (∀ other, other ≠ name →
        regLookup (reg ++ [(name, p)]) other = regLookup reg other)) := by
  refine ⟨rfl, ?_, ?_⟩
  · intro p h
    simp [Register, h]
  · intro p h
    have hns : (regLookup reg name).isSome = false := by rw [h]; rfl
    exact ⟨by simp [Register, hns], regLookup_append_self reg name p h,
      fun other ho => regLookup_append_other reg name p other ho⟩

/-- Witness for C7: nil provider, duplicate name, and a fresh name on a
concrete registry. -/
theorem Register_spec_witness :
    Register demoRegistry "demo" none
      = Except.error "session: register provider is nil" ∧
    Register demoRegistry "demo" (some echoProvider)
      = Except.error ("session: Register called twice for provider" ++ "demo") ∧
    Register demoRegistry "new" (some echoProvider)
      = Except.ok (demoRegistry ++ [("new", echoProvider)]) ∧
    regLookup (demoRegistry ++ [("new", echoProvider)]) "new" = some echoProvider ∧
    regLookup (demoRegistry ++ [("new", echoProvider)]) "demo"
      = regLookup demoRegistry "demo" :=
  ⟨(Register_spec demoRegistry "demo").1,
   (Register_spec demoRegistry "demo").2.1 echoProvider rfl,
   ((Register_spec demoRegistry "new").2.2 echoProvider rfl).1,
   ((Register_spec demoRegistry "new").2.2 echoProvider rfl).2.1,
   ((Register_spec demoRegistry "new").2.2 echoProvider rfl).2.2 "demo" (by decide)⟩

/-- Claim C8: a generated identifier is the URL-safe base64 encoding of
the 32 random bytes: every character is in the URL-safe alphabet or is
padding, and it decodes back to exactly those 32 bytes. -/
theorem sessionId_base64 (m : Manager) (bytes : List Nat)
    (rest : List (Option (List Nat)))
    (hlen : bytes.length = 32) (hb : ∀ b ∈ bytes, b < 256) :
    (m.sessionId ⟨some bytes :: rest⟩).1 = base64UrlEncode bytes ∧
    (∀ c ∈ (base64UrlEncode bytes).toList, c ∈ b64chars ∨ c = '=') ∧
    base64UrlDecode (base64UrlEncode bytes) = bytes ∧
    (base64UrlDecode (base64UrlEncode bytes)).length = 32 := by
  refine ⟨rfl, base64UrlEncode_chars bytes, base64_decode_encode bytes hb, ?_⟩
  rw [base64_decode_encode bytes hb, hlen]

/-- Witness for C8: a concrete 32-byte block through the generator. -/
theorem sessionId_base64_witness :
    (demoManager.sessionId ⟨[some demoBytes]⟩).1 = base64UrlEncode demoBytes ∧
    base64UrlDecode (base64UrlEncode demoBytes) = demoBytes ∧
    (base64UrlDecode (base64UrlEncode demoBytes)).length = 32 := by
  have h := sessionId_base64 demoManager demoBytes [] rfl (by decide)
  exact ⟨h.1, h.2.2.1, h.2.2.2⟩

/-- Claim C10: when query-unescaping a transported identifier fails, the
error is discarded and `""` is used: the cookie branch of `SessionStart`
calls `Provider.SessionRead("")`, and `ApiSessionStart` falls into the
create branch, returning exactly `ApiSessionCreate`. -/
theorem unescape_failure_uses_empty (m : Manager) (w : List Cookie)
    (r1 r2 : Request) (es es2 : EntropyState) (v : String)
    (hfail : queryUnescape v = none)
    (ck : Cookie) (hck : r1.cookie m.cookieName = some ck) (hv : ck.value = v)
    (hh : headerGet r2.headers "X-Session-Token" = v) :
    m.SessionStart w r1 es = (m.provider.SessionRead "", w, es) ∧
    m.ApiSessionStart r2 es2 = m.ApiSessionCreate es2 := by
  have hne : v ≠ "" := queryUnescape_ne_empty_of_fail v hfail
  constructor
  · simp [Manager.SessionStart, hck, hv, hne, queryUnescapeD, hfail]
  · simp [Manager.ApiSessionStart, hh, queryUnescapeD, hfail]

/-- Witness for C10: the malformed value `"%zz"` in a cookie and in the
header. -/
theorem unescape_failure_uses_empty_witness :
    demoManager.SessionStart []
        { cookies := [{ name := "gosessionid", value := "%zz", path := "/",
                        httpOnly := true, maxAge := 0 }], headers := [] } ⟨[]⟩
      = (demoManager.provider.SessionRead "", [], (⟨[]⟩ : EntropyState)) ∧
    demoManager.ApiSessionStart
        { cookies := [], headers := [("X-Session-Token", "%zz")] } ⟨[]⟩
      = demoManager.ApiSessionCreate ⟨[]⟩ :=
  unescape_failure_uses_empty demoManager []
    { cookies := [{ name := "gosessionid", value := "%zz", path := "/",
                    httpOnly := true, maxAge := 0 }], headers := [] }
    { cookies := [], headers := [("X-Session-Token", "%zz")] } ⟨[]⟩ ⟨[]⟩ "%zz"
    rfl
    { name := "gosessionid", value := "%zz", path := "/", httpOnly := true,
      maxAge := 0 }
    rfl rfl rfl
